import Mathlib

/-!
Verification of the pypeFLOW task module (src/pypeflow/task.py) against its
natural-language specification.  The Python code is shallowly embedded:
dictionaries become association lists (`Dict`), file data objects become the
`FileObj` record (whose `timeStamp`, `exists_` and `readOnly` fields hold the
values the Python object would report at observation time, and whose `oid`
field models CPython object identity, used only as the final tie-break of
tuple comparison), and stateful methods become explicit state-passing
functions.  Fallible Python code (raise) is embedded with `Except`.
-/

/-- Model of a PypeLocalFile-style data object as consumed by task.py.
`exists_` models the Python `exists` property (the name `exists` is reserved
in Lean), `oid` models CPython object identity (`id(obj)`), which Python 2
uses as the last resort when ordering objects of the same type. -/
structure FileObj where
  URL : String
  localFileName : String
  timeStamp : Int
  exists_ : Bool
  readOnly : Bool
  oid : Nat
deriving DecidableEq

/-- Python dictionaries that map symbolic names to values, in iteration
order. -/
abbrev Dict (α : Type) := List (String × α)

/-- The `parameters` mapping of a task (name to serializable value). -/
abbrev Params := Dict String

/-- The triples `(f.timeStamp, tag, f)` built by `timeStampCompare`. -/
abbrev TSTriple := Int × Char × FileObj

/-- Python 2 tuple comparison on the `(timeStamp, tag, obj)` triples of
`timeStampCompare`: lexicographic on the timestamp, then the tag character,
then (same-type objects without custom comparison) the object id. -/
def tripLt (a b : TSTriple) : Bool :=
  if a.1 < b.1 then true
  else if b.1 < a.1 then false
  else if a.2.1 < b.2.1 then true
  else if b.2.1 < a.2.1 then false
  else decide (a.2.2.oid < b.2.2.oid)

/-- Python `min(x :: l)`: keep the current value unless a later item is
strictly smaller, so the first minimal element wins. -/
def pyMinFold (x : TSTriple) (l : List TSTriple) : TSTriple :=
  l.foldl (fun acc y => if tripLt y acc then y else acc) x

/-- Python `max(x :: l)`: keep the current value unless a later item is
strictly larger, so the first maximal element wins. -/
def pyMaxFold (x : TSTriple) (l : List TSTriple) : TSTriple :=
  l.foldl (fun acc y => if tripLt acc y then y else acc) x

/-- The output loop of `timeStampCompare`: walk `outputDataObjs`; on the
first non-existing output set the run flag and stop (`break`), otherwise
collect the `(timeStamp, 'B', f)` triple.  Returns (runFlag, collected). -/
def collectOutputTS : Dict FileObj → Bool × List TSTriple
  | [] => (false, [])
  | (_, f) :: rest =>
    if !f.exists_ then (true, [])
    else
      let r := collectOutputTS rest
      (r.1, (f.timeStamp, 'B', f) :: r.2)

/-- Embedding of `timeStampCompare(inputDataObjs, outputDataObjs, parameters)`
(task.py lines 835-870).  Inputs are tagged 'A', outputs 'B'; an empty output
map forces the run flag; when the flag is still down and there are inputs, the
flag is raised iff the minimal output triple is less than the maximal input
triple. -/
def timeStampCompare (inputDataObjs outputDataObjs : Dict FileObj)
    (parameters : Params) : Bool :=
  let _ := parameters
  let inputDataObjsTS := inputDataObjs.map
    (fun p => ((p.2.timeStamp, 'A', p.2) : TSTriple))
  let c := collectOutputTS outputDataObjs
  let runFlag := if outputDataObjs.isEmpty then true else c.1
  if !runFlag && !inputDataObjs.isEmpty then
    match c.2, inputDataObjsTS with
    | o :: os, i :: is_ =>
      if tripLt (pyMinFold o os) (pyMaxFold i is_) then true else runFlag
    | _, _ => runFlag
  else
    runFlag

/-- Minimum of a nonempty list of timestamps, first element given apart. -/
def minTS (x : Int) (l : List Int) : Int := l.foldl min x

/-- Maximum of a nonempty list of timestamps, first element given apart. -/
def maxTS (x : Int) (l : List Int) : Int := l.foldl max x

/-! Lemmas about `timeStampCompare`. -/

theorem collectOutputTS_all_exist (outs : Dict FileObj)
    (h : ∀ p ∈ outs, p.2.exists_ = true) :
    collectOutputTS outs =
      (false, outs.map (fun p => ((p.2.timeStamp, 'B', p.2) : TSTriple))) := by
  induction outs with
  | nil => rfl
  | cons hd tl ih =>
    have hhd : hd.2.exists_ = true := h hd (List.mem_cons_self hd tl)
    have htl : ∀ p ∈ tl, p.2.exists_ = true :=
      fun p hp => h p (List.mem_cons_of_mem hd hp)
    cases hd with
    | mk k f =>
      simp only [collectOutputTS]
      simp only at hhd
      rw [hhd]
      simp [ih htl]

theorem tripLt_BA (t1 t2 : Int) (f1 f2 : FileObj) :
    tripLt (t1, 'B', f1) (t2, 'A', f2) = decide (t1 < t2) := by
  by_cases h1 : t1 < t2
  · simp [tripLt, h1]
  · by_cases h2 : t2 < t1
    · simp [tripLt, h1, h2]
    · have hBA : ¬ ('B' < 'A') := by decide
      have hAB : ('A' < 'B') := by decide
      simp [tripLt, h1, h2, hBA, hAB]

theorem pyMinFold_mem (x : TSTriple) (l : List TSTriple) :
    pyMinFold x l ∈ x :: l := by
  induction l generalizing x with
  | nil => simp [pyMinFold]
  | cons y ys ih =>
    have hstep : pyMinFold x (y :: ys) = pyMinFold (if tripLt y x then y else x) ys := rfl
    rw [hstep]
    rcases List.mem_cons.mp (ih (if tripLt y x then y else x)) with h | h
    · rw [h]
      by_cases hc : tripLt y x <;> simp [hc, List.mem_cons]
    · exact List.mem_cons_of_mem _ (List.mem_cons_of_mem _ h)

theorem pyMaxFold_mem (x : TSTriple) (l : List TSTriple) :
    pyMaxFold x l ∈ x :: l := by
  induction l generalizing x with
  | nil => simp [pyMaxFold]
  | cons y ys ih =>
    have hstep : pyMaxFold x (y :: ys) = pyMaxFold (if tripLt x y then y else x) ys := rfl
    rw [hstep]
    rcases List.mem_cons.mp (ih (if tripLt x y then y else x)) with h | h
    · rw [h]
      by_cases hc : tripLt x y <;> simp [hc, List.mem_cons]
    · exact List.mem_cons_of_mem _ (List.mem_cons_of_mem _ h)

theorem min_sel_fst (x y : TSTriple) :
    (if tripLt y x then y else x).1 = min x.1 y.1 := by
  by_cases h1 : y.1 < x.1
  · have : tripLt y x = true := by simp [tripLt, h1]
    simp [this, min_eq_right (le_of_lt h1)]
  · by_cases h2 : x.1 < y.1
    · have : tripLt y x = false := by simp [tripLt, h1, h2, lt_asymm h2]
      simp [this, min_eq_left (le_of_lt h2)]
    · have hxy : x.1 = y.1 := le_antisymm (not_lt.mp h1) (not_lt.mp h2)
      by_cases hc : tripLt y x <;> simp [hc, hxy]

theorem max_sel_fst (x y : TSTriple) :
    (if tripLt x y then y else x).1 = max x.1 y.1 := by
  by_cases h1 : x.1 < y.1
  · have : tripLt x y = true := by simp [tripLt, h1]
    simp [this, max_eq_right (le_of_lt h1)]
  · by_cases h2 : y.1 < x.1
    · have : tripLt x y = false := by simp [tripLt, lt_asymm h2, h2]
      simp [this, max_eq_left (le_of_lt h2)]
    · have hxy : x.1 = y.1 := le_antisymm (not_lt.mp h2) (not_lt.mp h1)
      by_cases hc : tripLt x y <;> simp [hc, hxy]

theorem pyMinFold_fst (x : TSTriple) (l : List TSTriple) :
    (pyMinFold x l).1 = minTS x.1 (l.map (fun t => t.1)) := by
  induction l generalizing x with
  | nil => rfl
  | cons y ys ih =>
    simp only [pyMinFold, List.foldl_cons, List.map_cons, minTS]
    rw [show (ys.foldl (fun acc y => if tripLt y acc then y else acc)
        (if tripLt y x then y else x)) = pyMinFold (if tripLt y x then y else x) ys from rfl]
    rw [ih, min_sel_fst]
    rfl

theorem pyMaxFold_fst (x : TSTriple) (l : List TSTriple) :
    (pyMaxFold x l).1 = maxTS x.1 (l.map (fun t => t.1)) := by
  induction l generalizing x with
  | nil => rfl
  | cons y ys ih =>
    simp only [pyMaxFold, List.foldl_cons, List.map_cons, maxTS]
    rw [show (ys.foldl (fun acc y => if tripLt acc y then y else acc)
        (if tripLt x y then y else x)) = pyMaxFold (if tripLt x y then y else x) ys from rfl]
    rw [ih, max_sel_fst]
    rfl

/-- C1, counterexample record: with one existing input and one existing
output carrying the same timestamp, `timeStampCompare` returns `false`: the
output tagged 'B' sorts after the input tagged 'A', so an equal-timestamp
output counts as newer and the task does NOT re-run, contrary to the claimed
tie-break ("equal timestamps count as stale"). -/
theorem timeStampCompare_tie_not_stale :
    timeStampCompare
      [("in_f", ⟨"file://in", "in", 5, true, false, 1⟩)]
      [("out_f", ⟨"file://out", "out", 5, true, false, 2⟩)]
      [] = false ∧
    (5 : Int) = 5 ∧
    (⟨"file://out", "out", 5, true, false, 2⟩ : FileObj).exists_ = true := by
  refine ⟨?_, rfl, rfl⟩
  rfl

/-- C1 (amended): with a non-empty output map whose members all exist and a
non-empty input map, `timeStampCompare` returns true iff the minimum output
timestamp is strictly less than the maximum input timestamp; at equal extreme
timestamps the output (tag 'B') sorts after the input (tag 'A'), so ties
count as NOT stale and the task does not re-run. -/
theorem timeStampCompare_min_max (ins outs : Dict FileObj) (ps : Params)
    (i : String × FileObj) (is_ : Dict FileObj)
    (o : String × FileObj) (os : Dict FileObj)
    (hins : ins = i :: is_) (houts : outs = o :: os)
    (hex : ∀ p ∈ outs, p.2.exists_ = true) :
    (timeStampCompare ins outs ps = true ↔
      minTS o.2.timeStamp (os.map (fun p => p.2.timeStamp)) <
      maxTS i.2.timeStamp (is_.map (fun p => p.2.timeStamp))) := by
  subst hins houts
  have hc := collectOutputTS_all_exist (o :: os) hex
  have houtsne : ((o :: os : Dict FileObj).isEmpty) = false := by rfl
  have hinsne : ((i :: is_ : Dict FileObj).isEmpty) = false := by rfl
  simp only [timeStampCompare, hc, houtsne, hinsne, List.map_cons,
    if_false, Bool.not_false, Bool.and_self, if_true]
  -- the guard `!runFlag && !ins.isEmpty` is true since runFlag = false
  have hmin := pyMinFold_fst ((o.2.timeStamp, 'B', o.2) : TSTriple)
    (os.map (fun p => ((p.2.timeStamp, 'B', p.2) : TSTriple)))
  have hmax := pyMaxFold_fst ((i.2.timeStamp, 'A', i.2) : TSTriple)
    (is_.map (fun p => ((p.2.timeStamp, 'A', p.2) : TSTriple)))
  -- the min of 'B'-tagged triples is itself 'B'-tagged, the max of
  -- 'A'-tagged triples is 'A'-tagged
  have hminmem := pyMinFold_mem ((o.2.timeStamp, 'B', o.2) : TSTriple)
    (os.map (fun p => ((p.2.timeStamp, 'B', p.2) : TSTriple)))
  have hmaxmem := pyMaxFold_mem ((i.2.timeStamp, 'A', i.2) : TSTriple)
    (is_.map (fun p => ((p.2.timeStamp, 'A', p.2) : TSTriple)))
  have hminB : (pyMinFold ((o.2.timeStamp, 'B', o.2) : TSTriple)
      (os.map (fun p => ((p.2.timeStamp, 'B', p.2) : TSTriple)))).2.1 = 'B' := by
    rcases List.mem_cons.mp hminmem with h | h
    · rw [h]
    · rcases List.mem_map.mp h with ⟨p, _, hp⟩
      rw [← hp]
  have hmaxA : (pyMaxFold ((i.2.timeStamp, 'A', i.2) : TSTriple)
      (is_.map (fun p => ((p.2.timeStamp, 'A', p.2) : TSTriple)))).2.1 = 'A' := by
    rcases List.mem_cons.mp hmaxmem with h | h
    · rw [h]
    · rcases List.mem_map.mp h with ⟨p, _, hp⟩
      rw [← hp]
  set mo := pyMinFold ((o.2.timeStamp, 'B', o.2) : TSTriple)
    (os.map (fun p => ((p.2.timeStamp, 'B', p.2) : TSTriple))) with hmo
  set mi := pyMaxFold ((i.2.timeStamp, 'A', i.2) : TSTriple)
    (is_.map (fun p => ((p.2.timeStamp, 'A', p.2) : TSTriple))) with hmi
  have htrip : tripLt mo mi = decide (mo.1 < mi.1) := by
    have : mo = (mo.1, 'B', mo.2.2) := by
      rcases mo with ⟨a, b, c⟩
      simp only at hminB
      rw [hminB]
    have hmi2 : mi = (mi.1, 'A', mi.2.2) := by
      rcases mi with ⟨a, b, c⟩
      simp only at hmaxA
      rw [hmaxA]
    rw [this, hmi2, tripLt_BA]
  rw [htrip]
  have hfstmin : mo.1 = minTS o.2.timeStamp (os.map (fun p => p.2.timeStamp)) := by
    rw [hmo, hmin, List.map_map]
    rfl
  have hfstmax : mi.1 = maxTS i.2.timeStamp (is_.map (fun p => p.2.timeStamp)) := by
    rw [hmi, hmax, List.map_map]
    rfl
  rw [hfstmin, hfstmax]
  constructor
  · intro h
    by_cases hlt : minTS o.2.timeStamp (os.map (fun p => p.2.timeStamp)) <
        maxTS i.2.timeStamp (is_.map (fun p => p.2.timeStamp))
    · exact hlt
    · simp [hlt] at h
  · intro h
    simp [h]

/-- C1 (amended), witness: output timestamp 3 < input timestamp 7 makes the
predicate fire on concrete data. -/
theorem timeStampCompare_min_max_witness :
    timeStampCompare
      [("in_f", ⟨"file://in", "in", 7, true, false, 1⟩)]
      [("out_f", ⟨"file://out", "out", 3, true, false, 2⟩)]
      [] = true := by
  have h := timeStampCompare_min_max
    [("in_f", ⟨"file://in", "in", 7, true, false, 1⟩)]
    [("out_f", ⟨"file://out", "out", 3, true, false, 2⟩)]
    []
    ("in_f", ⟨"file://in", "in", 7, true, false, 1⟩) []
    ("out_f", ⟨"file://out", "out", 3, true, false, 2⟩) []
    rfl rfl (by intro p hp; simp at hp; rw [hp])
  exact h.mpr (by norm_num [minTS, maxTS])

/-- C7: with an empty output map, `timeStampCompare` returns true whatever
the inputs and parameters are (a task with no declared outputs always needs
running). -/
theorem timeStampCompare_no_outputs (ins : Dict FileObj) (ps : Params) :
    timeStampCompare ins [] ps = true := by
  simp [timeStampCompare, collectOutputTS]

/-! ## The Task entity (class `PypeTaskBase`, task.py lines 65-308) -/

/-- Task status constants (task.py lines 60-62). -/
def TaskInitialized : String := "TaskInitialized"

/-- Terminal status: all declared outputs exist after a run. -/
def TaskDone : String := "done"

/-- Terminal status: some declared output is missing after a run. -/
def TaskFail : String := "fail"

/-- A staleness predicate, as stored in `_compareFunctions`. -/
abbrev CompareFun := Dict FileObj → Dict FileObj → Params → Bool

/-- State of a `PypeTaskBase` instance.  Fields follow the Python
attributes: `status` models `_status`, `referenceMD5` models
`_referenceMD5`, `codeMD5digest` models `_codeMD5digest`, and
`compareFunctions` models `_compareFunctions`. -/
structure PypeTaskBase where
  URL : String
  inputDataObjs : Dict FileObj
  outputDataObjs : Dict FileObj
  mutableDataObjs : Dict FileObj
  parameters : Params
  status : String
  referenceMD5 : Option String
  codeMD5digest : String
  compareFunctions : List CompareFun

/-- Embedding of `PypeTaskBase.__init__` (task.py lines 73-120): build the
instance with `Initialized` status and no reference fingerprint, then walk
the output data objects and raise `PypeError` on the first one whose
`readOnly` flag is set (so no instance is returned to the caller). -/
def PypeTaskBase.init (URL : String) (inputs outputs mutables : Dict FileObj)
    (parameters : Params) (codeMD5digest : String)
    (compareFunctions : List CompareFun) : Except String PypeTaskBase :=
  let t : PypeTaskBase :=
    { URL := URL, inputDataObjs := inputs, outputDataObjs := outputs,
      mutableDataObjs := mutables, parameters := parameters,
      status := TaskInitialized, referenceMD5 := none,
      codeMD5digest := codeMD5digest, compareFunctions := compareFunctions }
  match outputs.find? (fun p => p.2.readOnly) with
  | some p => .error ("Cannot assign read only data object " ++ p.2.URL
      ++ " for task " ++ URL)
  | none => .ok t

/-- The `any([f(...) for f in self._compareFunctions])` expression of
`_getRunFlag`. -/
def PypeTaskBase.anyCompare (t : PypeTaskBase) : Bool :=
  t.compareFunctions.any
    (fun f => f t.inputDataObjs t.outputDataObjs t.parameters)

/-- Embedding of `PypeTaskBase._getRunFlag` (task.py lines 137-146): when
the reference fingerprint is set and differs from the code fingerprint,
update the reference to the code fingerprint and return true; otherwise
return the OR of the configured compare predicates.  The returned state
carries the side effect on `_referenceMD5`. -/
def PypeTaskBase.getRunFlag (t : PypeTaskBase) : Bool × PypeTaskBase :=
  match t.referenceMD5 with
  | some r =>
    if r ≠ t.codeMD5digest then
      (true, { t with referenceMD5 := some t.codeMD5digest })
    else
      (t.anyCompare, t)
  | none => (t.anyCompare, t)

/-- Embedding of `PypeTaskBase.isSatisfied` (task.py lines 148-152):
`not self._getRunFlag()`. -/
def PypeTaskBase.isSatisfied (t : PypeTaskBase) : Bool × PypeTaskBase :=
  let r := t.getRunFlag
  (!r.1, r.2)

/-- What the opaque computation body may do to the mappings the wrapper
checks.  `inPlaceInputs`/`inPlaceParams` describe in-place mutations of the
dictionary objects the task already references (which the by-reference
snapshot in `run` aliases); `reboundInputs`/`reboundParams` model the body
rebinding `self.inputDataObjs`/`self.parameters` to fresh dictionary
objects. -/
structure BodyEffect where
  inPlaceInputs : Dict FileObj → Dict FileObj
  inPlaceParams : Params → Params
  reboundInputs : Option (Dict FileObj)
  reboundParams : Option Params

/-- The value of the snapshotted inputs object after the body ran (the
snapshot is a reference, so in-place mutations show up in it). -/
def BodyEffect.snapInputs (eff : BodyEffect) (t : PypeTaskBase) : Dict FileObj :=
  eff.inPlaceInputs t.inputDataObjs

/-- The value of the snapshotted parameters object after the body ran. -/
def BodyEffect.snapParams (eff : BodyEffect) (t : PypeTaskBase) : Params :=
  eff.inPlaceParams t.parameters

/-- The value of `self.inputDataObjs` after the body ran. -/
def BodyEffect.selfInputs (eff : BodyEffect) (t : PypeTaskBase) : Dict FileObj :=
  eff.reboundInputs.getD (eff.snapInputs t)

/-- The value of `self.parameters` after the body ran. -/
def BodyEffect.selfParams (eff : BodyEffect) (t : PypeTaskBase) : Params :=
  eff.reboundParams.getD (eff.snapParams t)

/-- Embedding of `PypeTaskBase.run` (task.py lines 260-290) for a
computation body that returns normally.  `run` snapshots `inputDataObjs` and
`parameters` by reference, invokes the body (modelled by `eff`), raises
`TaskFunctionError` when the current mappings compare unequal to the
snapshots, otherwise sets status `fail` or `done` according to whether every
declared output exists after the body (`existsAfter`), and returns `True`.
On the error path the task state is returned with its status untouched,
since the raise happens before any status assignment. -/
def PypeTaskBase.run (t : PypeTaskBase) (eff : BodyEffect)
    (existsAfter : FileObj → Bool) :
    Except (String × PypeTaskBase) (Bool × PypeTaskBase) :=
  let snapInputs := eff.snapInputs t
  let snapParams := eff.snapParams t
  let selfInputs := eff.selfInputs t
  let selfParams := eff.selfParams t
  if selfInputs ≠ snapInputs ∨ selfParams ≠ snapParams then
    .error ("The inputDataObjs and parameters should not be modified in "
        ++ t.URL,
      { t with inputDataObjs := selfInputs, parameters := selfParams })
  else
    let missing := t.outputDataObjs.filter (fun p => !existsAfter p.2)
    let newStatus := if missing.isEmpty then TaskDone else TaskFail
    .ok (true, { t with inputDataObjs := selfInputs,
                        parameters := selfParams, status := newStatus })

/-- C5: when a task carries a reference fingerprint that differs from its
code fingerprint, `_getRunFlag` returns true (whatever the compare
predicates say) and updates the reference to the code fingerprint, so an
immediately repeated check falls through to the OR of the compare
predicates; when the reference is unset or equal, the result is exactly
that OR; and `isSatisfied` is the negation of `_getRunFlag`. -/
theorem getRunFlag_spec (t : PypeTaskBase) :
    (∀ r, t.referenceMD5 = some r → r ≠ t.codeMD5digest →
      (t.getRunFlag.1 = true ∧
       t.getRunFlag.2.referenceMD5 = some t.codeMD5digest ∧
       (t.getRunFlag.2.getRunFlag).1 = t.getRunFlag.2.anyCompare))
  ∧ ((t.referenceMD5 = none ∨ t.referenceMD5 = some t.codeMD5digest) →
      t.getRunFlag.1 = t.anyCompare)
  ∧ t.isSatisfied.1 = !t.getRunFlag.1 := by
  refine ⟨?_, ?_, ?_⟩
  · intro r hr hne
    have h1 : t.getRunFlag = (true, { t with referenceMD5 := some t.codeMD5digest }) := by
      simp [PypeTaskBase.getRunFlag, hr, hne]
    refine ⟨by rw [h1], by rw [h1], ?_⟩
    rw [h1]
    simp [PypeTaskBase.getRunFlag]
  · rintro (hr | hr) <;> simp [PypeTaskBase.getRunFlag, hr]
  · simp [PypeTaskBase.isSatisfied]

/-- C5, witness: a concrete task with reference fingerprint "old" and code
fingerprint "new" reports stale once, updates the reference, and then
reports the compare-predicate result. -/
theorem getRunFlag_spec_witness :
    (({ URL := "task://t", inputDataObjs := [], outputDataObjs := [],
        mutableDataObjs := [], parameters := [], status := TaskInitialized,
        referenceMD5 := some "old", codeMD5digest := "new",
        compareFunctions := [fun _ _ _ => false] } : PypeTaskBase).getRunFlag.1 = true) ∧
    (({ URL := "task://t", inputDataObjs := [], outputDataObjs := [],
        mutableDataObjs := [], parameters := [], status := TaskInitialized,
        referenceMD5 := some "old", codeMD5digest := "new",
        compareFunctions := [fun _ _ _ => false] } : PypeTaskBase).getRunFlag.2.referenceMD5
      = some "new") := by
  have h := (getRunFlag_spec
    { URL := "task://t", inputDataObjs := [], outputDataObjs := [],
      mutableDataObjs := [], parameters := [], status := TaskInitialized,
      referenceMD5 := some "old", codeMD5digest := "new",
      compareFunctions := [fun _ _ _ => false] }).1 "old" rfl (by decide)
  exact ⟨h.1, h.2.1⟩

/-- C6: constructing a task that declares a read-only output data object
fails with a `PypeError` (here the `Except.error` case), so no task instance
is produced. -/
theorem init_readOnly_output_fails (URL : String)
    (inputs outputs mutables : Dict FileObj) (parameters : Params)
    (codeMD5digest : String) (compareFunctions : List CompareFun)
    (h : ∃ p ∈ outputs, p.2.readOnly = true) :
    (PypeTaskBase.init URL inputs outputs mutables parameters codeMD5digest
      compareFunctions).isOk = false := by
  rcases h with ⟨p, hp, hro⟩
  have hfind : (outputs.find? (fun p => p.2.readOnly)).isSome := by
    rw [List.find?_isSome]
    exact ⟨p, hp, hro⟩
  rcases Option.isSome_iff_exists.mp hfind with ⟨q, hq⟩
  simp [PypeTaskBase.init, hq, Except.isOk, Except.toBool]

/-- C6, witness: a concrete construction with one read-only output errors. -/
theorem init_readOnly_output_fails_witness :
    (PypeTaskBase.init "task://t" [] [("o", ⟨"file://o", "o", 0, false, true, 3⟩)]
      [] [] "" []).isOk = false := by
  exact init_readOnly_output_fails "task://t" [] _ [] [] "" []
    ⟨("o", ⟨"file://o", "o", 0, false, true, 3⟩), by simp, rfl⟩

/-- C2, counterexample: a computation body that mutates the shared
`parameters` dictionary in place (here prepending a binding) is NOT detected
by `run`: the by-reference snapshot aliases the same mutated object, the
equality re-check passes, no `TaskFunctionError` is raised, and the status
is set to `done` (the output exists).  This refutes the claim that every
mutation of the parameters mapping during execution raises
`TaskFunctionError` and leaves the status not `Done`. -/
theorem run_inplace_mutation_undetected :
    (({ URL := "task://t", inputDataObjs := [],
        outputDataObjs := [("o", ⟨"file://o", "o", 0, true, false, 7⟩)],
        mutableDataObjs := [], parameters := [("a", "1")],
        status := TaskInitialized, referenceMD5 := none, codeMD5digest := "",
        compareFunctions := [] } : PypeTaskBase).run
      { inPlaceInputs := id, inPlaceParams := fun ps => ("x", "2") :: ps,
        reboundInputs := none, reboundParams := none }
      (fun _ => true)).isOk = true ∧
    (({ URL := "task://t", inputDataObjs := [],
        outputDataObjs := [("o", ⟨"file://o", "o", 0, true, false, 7⟩)],
        mutableDataObjs := [], parameters := [("a", "1")],
        status := TaskInitialized, referenceMD5 := none, codeMD5digest := "",
        compareFunctions := [] } : PypeTaskBase).run
      { inPlaceInputs := id, inPlaceParams := fun ps => ("x", "2") :: ps,
        reboundInputs := none, reboundParams := none }
      (fun _ => true)).toOption.map (fun r => r.2.status) = some TaskDone ∧
    (fun ps => (("x", "2") :: ps : Params)) [("a", "1")] ≠ [("a", "1")] := by
  refine ⟨rfl, rfl, by simp⟩

/-- C2 (amended): `run` raises `TaskFunctionError` exactly when the mappings
bound to `self.inputDataObjs`/`self.parameters` after the body ran compare
unequal to the by-reference snapshots taken before the call — that is, only
when the body rebound one of them to a mapping unequal to the (possibly
in-place-mutated) original object; in that case the error is raised before
any status assignment, so the status is left unchanged (in particular not
set to `done`).  In-place mutations alias the snapshot and are never
detected. -/
theorem run_mutation_check (t : PypeTaskBase) (eff : BodyEffect)
    (existsAfter : FileObj → Bool) :
    (¬ (eff.selfInputs t = eff.snapInputs t ∧ eff.selfParams t = eff.snapParams t) →
      t.run eff existsAfter =
        .error ("The inputDataObjs and parameters should not be modified in "
            ++ t.URL,
          { t with inputDataObjs := eff.selfInputs t,
                   parameters := eff.selfParams t }) ∧
      ∀ msg t', t.run eff existsAfter = .error (msg, t') → t'.status = t.status)
  ∧ ((eff.selfInputs t = eff.snapInputs t ∧ eff.selfParams t = eff.snapParams t) →
      (t.run eff existsAfter).isOk = true) := by
  constructor
  · intro h
    have hcond : (eff.selfInputs t ≠ eff.snapInputs t ∨
        eff.selfParams t ≠ eff.snapParams t) := by
      by_contra hcon
      push_neg at hcon
      exact h ⟨hcon.1, hcon.2⟩
    have herr : t.run eff existsAfter =
        .error ("The inputDataObjs and parameters should not be modified in "
            ++ t.URL,
          { t with inputDataObjs := eff.selfInputs t,
                   parameters := eff.selfParams t }) := by
      simp only [PypeTaskBase.run]
      rw [if_pos hcond]
    refine ⟨herr, ?_⟩
    intro msg t' h'
    rw [herr] at h'
    have h2 := Except.error.inj h'
    have ht' : t' = { t with inputDataObjs := eff.selfInputs t,
                             parameters := eff.selfParams t } :=
      (congrArg Prod.snd h2).symm
    rw [ht']
  · intro h
    have hcond : ¬ (eff.selfInputs t ≠ eff.snapInputs t ∨
        eff.selfParams t ≠ eff.snapParams t) := by
      push_neg
      exact h
    simp only [PypeTaskBase.run]
    rw [if_neg hcond]
    rfl

/-- C2 (amended), witness: rebinding `parameters` to a different mapping is
caught on concrete data, with the status left `TaskInitialized`. -/
theorem run_mutation_check_witness :
    (({ URL := "task://t", inputDataObjs := [], outputDataObjs := [],
        mutableDataObjs := [], parameters := [("a", "1")],
        status := TaskInitialized, referenceMD5 := none, codeMD5digest := "",
        compareFunctions := [] } : PypeTaskBase).run
      { inPlaceInputs := id, inPlaceParams := id,
        reboundInputs := none, reboundParams := some [("a", "2")] }
      (fun _ => true)) =
      .error ("The inputDataObjs and parameters should not be modified in task://t",
        { URL := "task://t", inputDataObjs := [], outputDataObjs := [],
          mutableDataObjs := [], parameters := [("a", "2")],
          status := TaskInitialized, referenceMD5 := none, codeMD5digest := "",
          compareFunctions := [] }) := by
  have h := (run_mutation_check
    { URL := "task://t", inputDataObjs := [], outputDataObjs := [],
      mutableDataObjs := [], parameters := [("a", "1")],
      status := TaskInitialized, referenceMD5 := none, codeMD5digest := "",
      compareFunctions := [] }
    { inPlaceInputs := id, inPlaceParams := id,
      reboundInputs := none, reboundParams := some [("a", "2")] }
    (fun _ => true)).1 (by
      intro hcon
      have := hcon.2
      simp [BodyEffect.selfParams, BodyEffect.snapParams] at this)
  exact h.1

/-- C4, counterexample: a body that returns normally but rebinds
`parameters` to an unequal mapping makes `run` raise `TaskFunctionError`
instead of returning `True`, and the status stays `TaskInitialized` even
though every declared output exists.  This refutes the claim that `run`
returns `True` for every normally-returning body. -/
theorem run_rebound_no_true :
    (({ URL := "task://t", inputDataObjs := [],
        outputDataObjs := [("o", ⟨"file://o", "o", 0, true, false, 7⟩)],
        mutableDataObjs := [], parameters := [("a", "1")],
        status := TaskInitialized, referenceMD5 := none, codeMD5digest := "",
        compareFunctions := [] } : PypeTaskBase).run
      { inPlaceInputs := id, inPlaceParams := id,
        reboundInputs := none, reboundParams := some [("b", "9")] }
      (fun _ => true)).isOk = false := by
  rfl

/-- C4 (amended): whenever the computation body returns normally and leaves
`inputDataObjs` and `parameters` equal to their by-reference snapshots,
`run` returns `True` regardless of the pass/fail outcome, and the resulting
status is `done` when every declared output exists afterwards and `fail`
when some declared output is missing. -/
theorem run_returns_true (t : PypeTaskBase) (eff : BodyEffect)
    (existsAfter : FileObj → Bool)
    (hI : eff.selfInputs t = eff.snapInputs t)
    (hP : eff.selfParams t = eff.snapParams t) :
    (t.run eff existsAfter).toOption.map (fun r => r.1) = some true ∧
    (t.run eff existsAfter).toOption.map (fun r => r.2.status) =
      some (if t.outputDataObjs.all (fun p => existsAfter p.2)
            then TaskDone else TaskFail) := by
  have hcond : ¬ (eff.selfInputs t ≠ eff.snapInputs t ∨
      eff.selfParams t ≠ eff.snapParams t) := by
    push_neg
    exact ⟨hI, hP⟩
  have hrun : t.run eff existsAfter =
      .ok (true, { t with inputDataObjs := eff.selfInputs t,
                          parameters := eff.selfParams t,
                          status := if (t.outputDataObjs.filter
                              (fun p => !existsAfter p.2)).isEmpty
                            then TaskDone else TaskFail }) := by
    simp only [PypeTaskBase.run]
    rw [if_neg hcond]
  rw [hrun]
  refine ⟨rfl, ?_⟩
  simp only [Except.toOption, Option.map]
  congr 1
  by_cases hall : t.outputDataObjs.all (fun p => existsAfter p.2)
  · have hfe : (t.outputDataObjs.filter (fun p => !existsAfter p.2)).isEmpty := by
      rw [List.isEmpty_iff, List.filter_eq_nil_iff]
      intro p hp
      simp only [Bool.not_eq_true', Bool.not_eq_false]
      exact List.all_eq_true.mp hall p hp
    simp [hall, hfe]
  · have hne : ¬ (t.outputDataObjs.filter (fun p => !existsAfter p.2)).isEmpty := by
      rw [List.all_eq_true] at hall
      push_neg at hall
      rcases hall with ⟨p, hp, hpe⟩
      rw [List.isEmpty_iff]
      intro hnil
      have : p ∈ t.outputDataObjs.filter (fun p => !existsAfter p.2) := by
        rw [List.mem_filter]
        exact ⟨hp, by simp [hpe]⟩
      rw [hnil] at this
      exact List.not_mem_nil p this
    simp only [hall, if_false]
    simp [hne]

/-- C4 (amended), witness: on concrete data with one missing output, `run`
returns `True` with status `fail`. -/
theorem run_returns_true_witness :
    (({ URL := "task://t", inputDataObjs := [],
        outputDataObjs := [("o", ⟨"file://o", "o", 0, true, false, 7⟩)],
        mutableDataObjs := [], parameters := [], status := TaskInitialized,
        referenceMD5 := none, codeMD5digest := "",
        compareFunctions := [] } : PypeTaskBase).run
      { inPlaceInputs := id, inPlaceParams := id,
        reboundInputs := none, reboundParams := none }
      (fun _ => false)).toOption.map (fun r => r.1) = some true ∧
    (({ URL := "task://t", inputDataObjs := [],
        outputDataObjs := [("o", ⟨"file://o", "o", 0, true, false, 7⟩)],
        mutableDataObjs := [], parameters := [], status := TaskInitialized,
        referenceMD5 := none, codeMD5digest := "",
        compareFunctions := [] } : PypeTaskBase).run
      { inPlaceInputs := id, inPlaceParams := id,
        reboundInputs := none, reboundParams := none }
      (fun _ => false)).toOption.map (fun r => r.2.status) = some TaskFail := by
  have h := run_returns_true
    { URL := "task://t", inputDataObjs := [],
      outputDataObjs := [("o", ⟨"file://o", "o", 0, true, false, 7⟩)],
      mutableDataObjs := [], parameters := [], status := TaskInitialized,
      referenceMD5 := none, codeMD5digest := "",
      compareFunctions := [] }
    { inPlaceInputs := id, inPlaceParams := id,
      reboundInputs := none, reboundParams := none }
    (fun _ => false) rfl rfl
  exact ⟨h.1, h.2⟩

/-! ## Decimal formatting ("%d", "%02d", "%03d") -/

/-- Decimal representation of a natural number, as Python `%d` prints it:
most-significant digit first, "0" for zero. -/
def decRepr (n : Nat) : String :=
  if n = 0 then "0" else ⟨((Nat.digits 10 n).map Nat.digitChar).reverse⟩

/-- Python `"%02d" % n`: zero-pad the decimal representation to width 2. -/
def fmt02 (n : Nat) : String :=
  if n < 10 then "0" ++ decRepr n else decRepr n

/-- Python `"%03d" % n`: zero-pad the decimal representation to width 3. -/
def fmt03 (n : Nat) : String :=
  if n < 10 then "00" ++ decRepr n
  else if n < 100 then "0" ++ decRepr n
  else decRepr n

/-! ## The FOFN mapper (`PypeFOFNMapTasks`, task.py lines 749-831) -/

/-- The compare function installed on the synthetic aggregation task:
`lambda inObjs, outObj, params: False` — this task is never meant to be
run. -/
def pseudoScatterCompare : CompareFun := fun _ _ _ => false

/-- Per-line loop of `PypeFOFNMapTasks` (task.py lines 792-814): for each
(already stripped, non-blank) file name build one task whose sole input is
that file and whose sole output is the file produced by the template
function.  `env` models `makePypeLocalFile` (external `data` module): the
data object the given path denotes.  `md5hex` models
`hashlib.md5(fn).hexdigest()`. -/
def buildFOFNLineTasks (env : String → FileObj) (md5hex : String → String)
    (outTemplateFunc : String → String) (URL : String) (parameters : Params)
    (codeMD5 : String) : List String → Except String (List PypeTaskBase)
  | [] => .ok []
  | fn :: rest => do
    let t ← PypeTaskBase.init (URL.replace "tasks" "task" ++ "/" ++ md5hex fn)
        [("in_f", env fn)] [("out_f", env (outTemplateFunc fn))] []
        parameters codeMD5 [timeStampCompare]
    let ts ← buildFOFNLineTasks env md5hex outTemplateFunc URL parameters
        codeMD5 rest
    .ok (t :: ts)

/-- Embedding of `PypeFOFNMapTasks` (task.py lines 749-831).  `FOFNcontents`
is the manifest file line by line; lines are stripped and blank lines
skipped; one task per remaining line is built, then one synthetic
aggregation task is appended whose sole input is the manifest file, whose
outputs are all per-line input files (under names `FOFNout%03d`), whose
compare-function list is `[lambda ...: False]`, and whose parameters and
code fingerprint come from a fresh keyword dictionary (empty / ""). -/
def PypeFOFNMapTasks (env : String → FileObj) (md5hex : String → String)
    (FOFNcontents : List String) (outTemplateFunc : String → String)
    (FOFNFileName : String) (URL : String) (parameters : Params)
    (codeMD5 : String) : Except String (List PypeTaskBase) := do
  let fns := (FOFNcontents.map (fun l => l.trim)).filter
    (fun fn => fn.length != 0)
  let tasks ← buildFOFNLineTasks env md5hex outTemplateFunc URL parameters
    codeMD5 fns
  let allFOFNOutDataObjs : Dict FileObj := tasks.enum.filterMap
    (fun p => (p.2.inputDataObjs.lookup "in_f").map
      (fun f => ("FOFNout" ++ fmt03 p.1, f)))
  let agg ← PypeTaskBase.init ("task://pseudoScatterTask/" ++ FOFNFileName)
      [("FOFNin", env FOFNFileName)] allFOFNOutDataObjs [] [] ""
      [pseudoScatterCompare]
  .ok (tasks ++ [agg])

theorem PypeTaskBase.init_ok {URL : String}
    {inputs outputs mutables : Dict FileObj} {parameters : Params}
    {codeMD5digest : String} {compareFunctions : List CompareFun}
    {t : PypeTaskBase}
    (h : PypeTaskBase.init URL inputs outputs mutables parameters
      codeMD5digest compareFunctions = .ok t) :
    t = { URL := URL, inputDataObjs := inputs, outputDataObjs := outputs,
          mutableDataObjs := mutables, parameters := parameters,
          status := TaskInitialized, referenceMD5 := none,
          codeMD5digest := codeMD5digest,
          compareFunctions := compareFunctions } := by
  unfold PypeTaskBase.init at h
  cases hf : outputs.find? (fun p => p.2.readOnly) with
  | some p => rw [hf] at h; exact absurd h (by simp)
  | none => rw [hf] at h; exact (Except.ok.inj h).symm

theorem buildFOFNLineTasks_out (env : String → FileObj)
    (md5hex : String → String) (outTemplateFunc : String → String)
    (URL : String) (parameters : Params) (codeMD5 : String) :
    ∀ (fns : List String) (tasks : List PypeTaskBase) (k : Nat),
    buildFOFNLineTasks env md5hex outTemplateFunc URL parameters codeMD5 fns
      = .ok tasks →
    (tasks.enumFrom k).filterMap
      (fun p => (p.2.inputDataObjs.lookup "in_f").map
        (fun f => ("FOFNout" ++ fmt03 p.1, f)))
    = (fns.enumFrom k).map (fun p => ("FOFNout" ++ fmt03 p.1, env p.2)) := by
  intro fns
  induction fns with
  | nil =>
    intro tasks k h
    simp only [buildFOFNLineTasks] at h
    have : tasks = [] := (Except.ok.inj h).symm
    subst this
    rfl
  | cons fn rest ih =>
    intro tasks k h
    simp only [buildFOFNLineTasks] at h
    cases hinit : PypeTaskBase.init (URL.replace "tasks" "task" ++ "/" ++ md5hex fn)
        [("in_f", env fn)] [("out_f", env (outTemplateFunc fn))] []
        parameters codeMD5 [timeStampCompare] with
    | error e => rw [hinit] at h; exact Except.noConfusion h
    | ok t0 =>
      rw [hinit] at h
      cases hrest : buildFOFNLineTasks env md5hex outTemplateFunc URL
          parameters codeMD5 rest with
      | error e => rw [hrest] at h; exact Except.noConfusion h
      | ok ts0 =>
        rw [hrest] at h
        have htasks : tasks = t0 :: ts0 := (Except.ok.inj h).symm
        subst htasks
        have ht0 := PypeTaskBase.init_ok hinit
        have hin : t0.inputDataObjs = [("in_f", env fn)] := by rw [ht0]
        simp only [List.enumFrom, List.filterMap_cons, List.map_cons, hin]
        have hlk : (([("in_f", env fn)] : Dict FileObj).lookup "in_f")
            = some (env fn) := by rfl
        rw [hlk]
        simp only [Option.map_some']
        rw [ih ts0 (k + 1) hrest]

/-- C8: the synthetic aggregation task appended last by `PypeFOFNMapTasks`
has the manifest file as its sole input, the per-line input files as its
outputs, no reference fingerprint, and `[lambda: False]` as its compare
functions, so its `_getRunFlag` is false and `isSatisfied` is true for every
state of the manifest and per-line files (`env` is universally
quantified). -/
theorem fofn_aggregate_never_stale (env : String → FileObj)
    (md5hex : String → String) (FOFNcontents : List String)
    (outTemplateFunc : String → String) (FOFNFileName : String)
    (URL : String) (parameters : Params) (codeMD5 : String)
    (ts : List PypeTaskBase) (t : PypeTaskBase)
    (h : PypeFOFNMapTasks env md5hex FOFNcontents outTemplateFunc
      FOFNFileName URL parameters codeMD5 = .ok ts)
    (hl : ts.getLast? = some t) :
    t.inputDataObjs = [("FOFNin", env FOFNFileName)] ∧
    t.outputDataObjs =
      (((FOFNcontents.map (fun l => l.trim)).filter
        (fun fn => fn.length != 0)).enumFrom 0).map
        (fun p => ("FOFNout" ++ fmt03 p.1, env p.2)) ∧
    t.referenceMD5 = none ∧
    t.compareFunctions = [pseudoScatterCompare] ∧
    t.getRunFlag.1 = false ∧
    t.isSatisfied.1 = true := by
  simp only [PypeFOFNMapTasks] at h
  cases hb : buildFOFNLineTasks env md5hex outTemplateFunc URL parameters
      codeMD5 ((FOFNcontents.map (fun l => l.trim)).filter
        (fun fn => fn.length != 0)) with
  | error e => rw [hb] at h; exact Except.noConfusion h
  | ok tasks =>
    rw [hb] at h
    have h2 : Except.bind
        (PypeTaskBase.init ("task://pseudoScatterTask/" ++ FOFNFileName)
          [("FOFNin", env FOFNFileName)]
          (tasks.enum.filterMap
            (fun p => (p.2.inputDataObjs.lookup "in_f").map
              (fun f => ("FOFNout" ++ fmt03 p.1, f)))) [] [] ""
          [pseudoScatterCompare])
        (fun agg => Except.ok (tasks ++ [agg])) = Except.ok ts := h
    cases hi : PypeTaskBase.init ("task://pseudoScatterTask/" ++ FOFNFileName)
        [("FOFNin", env FOFNFileName)]
        (tasks.enum.filterMap
          (fun p => (p.2.inputDataObjs.lookup "in_f").map
            (fun f => ("FOFNout" ++ fmt03 p.1, f)))) [] [] ""
        [pseudoScatterCompare] with
    | error e =>
      rw [hi] at h2
      exact Except.noConfusion h2
    | ok agg =>
      rw [hi] at h2
      have hts : ts = tasks ++ [agg] := (Except.ok.inj h2).symm
      have hlast : ts.getLast? = some agg := by
        rw [hts, List.getLast?_concat]
      have htagg : t = agg := by
        rw [hlast] at hl
        exact (Option.some.inj hl).symm
      subst htagg
      have hagg := PypeTaskBase.init_ok hi
      have hout : t.outputDataObjs =
          (((FOFNcontents.map (fun l => l.trim)).filter
            (fun fn => fn.length != 0)).enumFrom 0).map
            (fun p => ("FOFNout" ++ fmt03 p.1, env p.2)) := by
        rw [hagg]
        simp only
        rw [show (tasks.enum) = tasks.enumFrom 0 from rfl]
        exact buildFOFNLineTasks_out env md5hex outTemplateFunc URL
          parameters codeMD5 _ tasks 0 hb
      refine ⟨by rw [hagg], hout, by rw [hagg], by rw [hagg], ?_, ?_⟩
      · rw [show t.getRunFlag = (t.anyCompare, t) from by rw [hagg]; rfl]
        rw [show t.anyCompare = false from by
          rw [PypeTaskBase.anyCompare, show t.compareFunctions =
            [pseudoScatterCompare] from by rw [hagg]]
          rfl]
      · rw [PypeTaskBase.isSatisfied]
        rw [show t.getRunFlag = (t.anyCompare, t) from by rw [hagg]; rfl]
        rw [show t.anyCompare = false from by
          rw [PypeTaskBase.anyCompare, show t.compareFunctions =
            [pseudoScatterCompare] from by rw [hagg]]
          rfl]
        rfl

/-- C8, witness: with an empty manifest the collection is just the
aggregation task, and on concrete data it is never stale. -/
theorem fofn_aggregate_never_stale_witness :
    (({ URL := "task://pseudoScatterTask/fofn",
        inputDataObjs := [("FOFNin", ⟨"fofn", "fofn", 0, true, false, 0⟩)],
        outputDataObjs := [], mutableDataObjs := [], parameters := [],
        status := TaskInitialized, referenceMD5 := none, codeMD5digest := "",
        compareFunctions := [pseudoScatterCompare] } : PypeTaskBase).getRunFlag.1
      = false) ∧
    (({ URL := "task://pseudoScatterTask/fofn",
        inputDataObjs := [("FOFNin", ⟨"fofn", "fofn", 0, true, false, 0⟩)],
        outputDataObjs := [], mutableDataObjs := [], parameters := [],
        status := TaskInitialized, referenceMD5 := none, codeMD5digest := "",
        compareFunctions := [pseudoScatterCompare] } : PypeTaskBase).isSatisfied.1
      = true) := by
  have h := fofn_aggregate_never_stale
    (fun s => ⟨s, s, 0, true, false, 0⟩) (fun _ => "h") [] (fun s => s)
    "fofn" "tasks://m/f" [] ""
    [{ URL := "task://pseudoScatterTask/fofn",
       inputDataObjs := [("FOFNin", ⟨"fofn", "fofn", 0, true, false, 0⟩)],
       outputDataObjs := [], mutableDataObjs := [], parameters := [],
       status := TaskInitialized, referenceMD5 := none, codeMD5digest := "",
       compareFunctions := [pseudoScatterCompare] }]
    { URL := "task://pseudoScatterTask/fofn",
      inputDataObjs := [("FOFNin", ⟨"fofn", "fofn", 0, true, false, 0⟩)],
      outputDataObjs := [], mutableDataObjs := [], parameters := [],
      status := TaskInitialized, referenceMD5 := none, codeMD5digest := "",
      compareFunctions := [pseudoScatterCompare] }
    rfl rfl
  exact ⟨h.2.2.2.2.1, h.2.2.2.2.2⟩

/-! ## Name de-duplication (`_auto_names` / `_unique_name`, task.py 412-432) -/

/-- The formatted try-name `"%s.%02d" % (name, n)`. -/
def fmtTryName (name : String) (n : Nat) : String :=
  name ++ "." ++ fmt02 n

/-- Numeric value of a decimal digit character. -/
def charVal (c : Char) : Nat := c.toNat - 48

/-- Read a big-endian digit-character list back as a number (leading zeros
are immaterial).  Left inverse of the decimal printers, used to prove them
injective. -/
def parseData (l : List Char) : Nat :=
  Nat.ofDigits 10 (l.reverse.map charVal)

theorem charVal_digitChar : ∀ d, d < 10 → charVal (Nat.digitChar d) = d := by
  decide

theorem parseData_decRepr (n : Nat) : parseData (decRepr n).data = n := by
  by_cases h : n = 0
  · subst h
    rfl
  · have hd : (decRepr n).data = ((Nat.digits 10 n).map Nat.digitChar).reverse := by
      simp [decRepr, h]
    rw [parseData, hd, List.reverse_reverse, List.map_map]
    have hmap : (Nat.digits 10 n).map (charVal ∘ Nat.digitChar)
        = (Nat.digits 10 n).map id := by
      apply List.map_congr_left
      intro d hdm
      exact charVal_digitChar d (Nat.digits_lt_base (by norm_num) hdm)
    rw [hmap, List.map_id]
    exact Nat.ofDigits_digits 10 n

theorem parseData_append_zero (l : List Char) :
    parseData ('0' :: l) = parseData l := by
  simp only [parseData, List.reverse_cons, List.map_append]
  rw [Nat.ofDigits_append]
  have : ([('0' : Char)].map charVal) = [0] := by rfl
  rw [this]
  have h0 : Nat.ofDigits 10 ([0] : List Nat) = 0 := by
    simp [Nat.ofDigits_cons, Nat.ofDigits_nil]
  rw [h0]
  ring

theorem parseData_fmt02 (n : Nat) : parseData (fmt02 n).data = n := by
  by_cases h : n < 10
  · have : (fmt02 n).data = '0' :: (decRepr n).data := by
      simp only [fmt02, h, if_true, String.data_append]
      rfl
    rw [this, parseData_append_zero, parseData_decRepr]
  · simp only [fmt02, h, if_false]
    exact parseData_decRepr n

theorem fmtTryName_inj (name : String) {a b : Nat}
    (h : fmtTryName name a = fmtTryName name b) : a = b := by
  have hdata := congrArg String.data h
  simp only [fmtTryName, String.data_append] at hdata
  rw [List.append_assoc, List.append_assoc] at hdata
  have h2 := List.append_cancel_left hdata
  have h3 := List.append_cancel_left h2
  have := congrArg parseData h3
  rwa [parseData_fmt02, parseData_fmt02] at this

/-- The `while` loop of `_unique_name` (task.py lines 424-429): starting
above `n`, return the first counter whose formatted try-name is not yet
registered.  The loop is given explicit fuel; `reg.length + 1` is always
enough (pigeonhole), so the bounded search equals the unbounded Python
loop. -/
def findCounterAux (reg : List String) (name : String) : Nat → Nat → Nat
  | 0, n => n + 1
  | fuel + 1, n =>
    if fmtTryName name (n + 1) ∈ reg then findCounterAux reg name fuel (n + 1)
    else n + 1

/-- Embedding of `_unique_name(name)` (task.py lines 412-432) against an
explicit registry state modelling the process-wide `_auto_names` set: if the
name is taken, suffix it with the first free counter; register and return
the chosen name. -/
def uniqueName (auto_names : List String) (name : String) :
    String × List String :=
  if name ∈ auto_names then
    let tryName := fmtTryName name
      (findCounterAux auto_names name (auto_names.length + 1) 0)
    (tryName, tryName :: auto_names)
  else
    (name, name :: auto_names)

/-- A sequence of `_unique_name` calls threading the registry, returning the
names in call order together with the final registry. -/
def uniqueNames (reg : List String) : List String → List String × List String
  | [] => ([], reg)
  | n :: ns =>
    let r := uniqueName reg n
    let rest := uniqueNames r.2 ns
    (r.1 :: rest.1, rest.2)

theorem findCounterAux_spec (reg : List String) (name : String) :
    ∀ (fuel n : Nat),
    (∃ k, n < k ∧ k ≤ n + fuel ∧ fmtTryName name k ∉ reg) →
    (n < findCounterAux reg name fuel n ∧
     fmtTryName name (findCounterAux reg name fuel n) ∉ reg ∧
     ∀ j, n < j → j < findCounterAux reg name fuel n →
       fmtTryName name j ∈ reg) := by
  intro fuel
  induction fuel with
  | zero =>
    intro n h
    rcases h with ⟨k, h1, h2, _⟩
    omega
  | succ fuel ih =>
    intro n h
    by_cases hmem : fmtTryName name (n + 1) ∈ reg
    · have hstep : findCounterAux reg name (fuel + 1) n
          = findCounterAux reg name fuel (n + 1) := by
        simp [findCounterAux, hmem]
      rcases h with ⟨k, hk1, hk2, hk3⟩
      have hkne : k ≠ n + 1 := by
        intro he
        rw [he] at hk3
        exact hk3 hmem
      have hih := ih (n + 1) ⟨k, by omega, by omega, hk3⟩
      rw [hstep]
      refine ⟨by omega, hih.2.1, ?_⟩
      intro j hj1 hj2
      by_cases hje : j = n + 1
      · rw [hje]; exact hmem
      · exact hih.2.2 j (by omega) hj2
    · have hstep : findCounterAux reg name (fuel + 1) n = n + 1 := by
        simp [findCounterAux, hmem]
      rw [hstep]
      exact ⟨by omega, hmem, by omega⟩

theorem free_counter_exists (reg : List String) (name : String) :
    ∃ k, 0 < k ∧ k ≤ reg.length + 1 ∧ fmtTryName name k ∉ reg := by
  by_contra hcon
  push_neg at hcon
  have hsub : (Finset.Icc 1 (reg.length + 1)).image (fun k => fmtTryName name k)
      ⊆ reg.toFinset := by
    intro s hs
    rcases Finset.mem_image.mp hs with ⟨k, hk, hks⟩
    rw [Finset.mem_Icc] at hk
    rw [List.mem_toFinset, ← hks]
    exact hcon k (by omega) hk.2
  have hcard := Finset.card_le_card hsub
  have himg : ((Finset.Icc 1 (reg.length + 1)).image
      (fun k => fmtTryName name k)).card = reg.length + 1 := by
    rw [Finset.card_image_of_injOn (fun a _ b _ hab => fmtTryName_inj name hab)]
    rw [Nat.card_Icc]
    omega
  have hfin := List.toFinset_card_le reg
  omega

theorem uniqueName_not_mem (reg : List String) (name : String) :
    (uniqueName reg name).1 ∉ reg := by
  by_cases h : name ∈ reg
  · have hr : (uniqueName reg name).1 = fmtTryName name
        (findCounterAux reg name (reg.length + 1) 0) := by
      simp [uniqueName, h]
    rcases free_counter_exists reg name with ⟨k, h1, h2, h3⟩
    have hspec := findCounterAux_spec reg name (reg.length + 1) 0
      ⟨k, h1, by omega, h3⟩
    rw [hr]
    exact hspec.2.1
  · have hr : (uniqueName reg name).1 = name := by simp [uniqueName, h]
    rw [hr]
    exact h

theorem uniqueName_snd (reg : List String) (name : String) :
    (uniqueName reg name).2 = (uniqueName reg name).1 :: reg := by
  by_cases h : name ∈ reg <;> simp [uniqueName, h]

theorem uniqueNames_avoid (x : String) :
    ∀ (ns : List String) (reg : List String), x ∈ reg →
      x ∉ (uniqueNames reg ns).1 := by
  intro ns
  induction ns with
  | nil => intro reg _; simp [uniqueNames]
  | cons n ns ih =>
    intro reg hx
    simp only [uniqueNames, List.mem_cons]
    push_neg
    constructor
    · intro he
      have := uniqueName_not_mem reg n
      rw [← he] at this
      exact this hx
    · apply ih
      rw [uniqueName_snd]
      exact List.mem_cons_of_mem _ hx

theorem uniqueNames_pairwise :
    ∀ (calls : List String) (reg : List String),
      ((uniqueNames reg calls).1).Pairwise (fun a b => a ≠ b) := by
  intro calls
  induction calls with
  | nil => intro reg; simp [uniqueNames]
  | cons c cs ih =>
    intro reg
    simp only [uniqueNames]
    refine List.Pairwise.cons ?_ (ih (uniqueName reg c).2)
    intro y hy he
    have hav : (uniqueName reg c).1 ∉ (uniqueNames (uniqueName reg c).2 cs).1 := by
      apply uniqueNames_avoid
      rw [uniqueName_snd]
      exact List.mem_cons_self _ _
    rw [he] at hav
    exact hav hy

/-- C9: `_unique_name` never returns a registered name, so (a) calling it
twice for the same base yields two distinct names; (b) the second result is
the base suffixed (via `"%s.%02d"`) with the smallest positive counter whose
formatted name is not yet registered; and (c) the names returned across any
sequence of calls are pairwise distinct. -/
theorem uniqueName_dedup (reg : List String) (name : String) :
    ((uniqueName (uniqueName reg name).2 name).1 ≠ (uniqueName reg name).1)
  ∧ (∃ k, 0 < k ∧ fmtTryName name k ∉ (uniqueName reg name).2 ∧
      (∀ j, 0 < j → j < k → fmtTryName name j ∈ (uniqueName reg name).2) ∧
      (uniqueName (uniqueName reg name).2 name).1 = fmtTryName name k)
  ∧ (∀ calls : List String,
      ((uniqueNames reg calls).1).Pairwise (fun a b => a ≠ b)) := by
  have hmem1 : name ∈ (uniqueName reg name).2 := by
    rw [uniqueName_snd]
    by_cases h : name ∈ reg
    · exact List.mem_cons_of_mem _ h
    · have : (uniqueName reg name).1 = name := by simp [uniqueName, h]
      rw [this]
      exact List.mem_cons_self _ _
  set reg1 := (uniqueName reg name).2 with hreg1
  have hsecond : (uniqueName reg1 name).1 = fmtTryName name
      (findCounterAux reg1 name (reg1.length + 1) 0) := by
    simp [uniqueName, hmem1]
  rcases free_counter_exists reg1 name with ⟨k0, hk1, hk2, hk3⟩
  have hspec := findCounterAux_spec reg1 name (reg1.length + 1) 0
    ⟨k0, hk1, by omega, hk3⟩
  refine ⟨?_, ?_, ?_⟩
  · intro he
    have hnm := uniqueName_not_mem reg1 name
    rw [he] at hnm
    apply hnm
    rw [hreg1, uniqueName_snd]
    exact List.mem_cons_self _ _
  · refine ⟨findCounterAux reg1 name (reg1.length + 1) 0,
      hspec.1, hspec.2.1, ?_, hsecond⟩
    intro j hj1 hj2
    exact hspec.2.2 j hj1 hj2
  · intro calls
    exact uniqueNames_pairwise calls reg

/-- C9, witness: three calls for the same base on the empty registry return
pairwise-distinct names. -/
theorem uniqueName_dedup_witness :
    ((uniqueNames [] ["foo", "foo", "foo"]).1).Pairwise (fun a b => a ≠ b) :=
  (uniqueName_dedup [] "foo").2.2 ["foo", "foo", "foo"]

/-! ## The scatter/gather decomposer (`PypeScatteredTasks`, task.py 669-745) -/

/-- A data object as seen by the decomposer: `nChunk` is present exactly on
splittable files (`hasattr(obj, "nChunk")`), `scatterTask`/`gatherTask`
model `getScatterTask()`/`getGatherTask()` (tasks referenced by an opaque
identifier), and `splittedFiles` models `getSplittedFiles()` — `none` for a
plain file, where the attribute access would raise. -/
structure SDataObj where
  URL : String
  oid : Nat
  nChunk : Option Nat
  scatterTask : Option String
  gatherTask : Option String
  splittedFiles : Option (List FileObj)
deriving DecidableEq

/-- The input scan of `PypeScatteredTasks` (task.py lines 690-699): thread
the chunk count, the scatter/gather auxiliary task list and the
`scatteredInput` key list; a chunk-count mismatch is a fatal assertion.
Only the FIRST chunked input (the one that sets `nChunk`) contributes its
scatter task. -/
def scanScatteredInputs : List (String × SDataObj) → Option Nat →
    List String → List String →
    Except String (Option Nat × List String × List String)
  | [], nChunk, sg, scat => .ok (nChunk, sg, scat)
  | (inputKey, inputDO) :: rest, nChunk, sg, scat =>
    match inputDO.nChunk with
    | some c =>
      match nChunk with
      | some n =>
        if c = n then scanScatteredInputs rest (some n) sg (scat ++ [inputKey])
        else .error "AssertionError"
      | none =>
        match inputDO.scatterTask with
        | some st =>
          scanScatteredInputs rest (some c) (sg ++ [st]) (scat ++ [inputKey])
        | none => scanScatteredInputs rest (some c) sg (scat ++ [inputKey])
    | none => scanScatteredInputs rest nChunk sg scat

/-- The output scan of `PypeScatteredTasks` (task.py lines 701-708): a
chunked output contributes its gather task only in the branch where the
chunk count is ALREADY set; the output that first sets `nChunk` contributes
nothing. -/
def scanScatteredOutputs : List (String × SDataObj) → Option Nat →
    List String → Except String (Option Nat × List String)
  | [], nChunk, sg => .ok (nChunk, sg)
  | (_, outputDO) :: rest, nChunk, sg =>
    match outputDO.nChunk with
    | some c =>
      match nChunk with
      | some n =>
        if c = n then
          match outputDO.gatherTask with
          | some gt => scanScatteredOutputs rest (some n) (sg ++ [gt])
          | none => scanScatteredOutputs rest (some n) sg
        else .error "AssertionError"
      | none => scanScatteredOutputs rest (some c) sg
    | none => scanScatteredOutputs rest nChunk sg

/-- Per-chunk input map (task.py lines 715-720): keys recorded in
`scatteredInput` are replaced by `getSplittedFiles()[i]` (an absent attribute
or index is a fatal error), all other inputs pass through unchanged. -/
def buildSubTaskInput (scat : List String) (i : Nat) :
    List (String × SDataObj) →
    Except String (List (String × Sum SDataObj FileObj))
  | [] => .ok []
  | (inputKey, inputDO) :: rest =>
    if inputKey ∈ scat then
      match inputDO.splittedFiles with
      | none => .error "AttributeError: getSplittedFiles"
      | some files =>
        match files[i]? with
        | none => .error "IndexError"
        | some f =>
          match buildSubTaskInput scat i rest with
          | .error e => .error e
          | .ok r => .ok ((inputKey, Sum.inr f) :: r)
    else
      match buildSubTaskInput scat i rest with
      | .error e => .error e
      | .ok r => .ok ((inputKey, Sum.inl inputDO) :: r)

/-- Per-chunk output map (task.py lines 722-724): EVERY output, chunked or
not, is replaced by `getSplittedFiles()[i]`; a non-splittable output is a
fatal attribute error, never a pass-through. -/
def buildSubTaskOutput (i : Nat) : List (String × SDataObj) →
    Except String (List (String × Sum SDataObj FileObj))
  | [] => .ok []
  | (outputKey, outputDO) :: rest =>
    match outputDO.splittedFiles with
    | none => .error "AttributeError: getSplittedFiles"
    | some files =>
      match files[i]? with
      | none => .error "IndexError"
      | some f =>
        match buildSubTaskOutput i rest with
        | .error e => .error e
        | .ok r => .ok ((outputKey, Sum.inr f) :: r)

/-- The per-chunk task configuration produced by the decomposer. -/
structure SubTaskCfg where
  URL : String
  chunk_id : Nat
  inputDataObjs : List (String × Sum SDataObj FileObj)
  outputDataObjs : List (String × Sum SDataObj FileObj)
deriving DecidableEq

/-- One per-chunk configuration: the collection URL turned into a task URL
(`kwargv["URL"].replace("tasks","task")`) suffixed by the zero-padded chunk
index, with `chunk_id = i`. -/
def mkSubTaskCfg (URL : String) (i : Nat)
    (ins outs : List (String × Sum SDataObj FileObj)) : SubTaskCfg :=
  { URL := URL.replace "tasks" "task" ++ "/" ++ fmt03 i,
    chunk_id := i, inputDataObjs := ins, outputDataObjs := outs }

/-- The `for i in range(nChunk)` loop of `PypeScatteredTasks` (task.py lines
711-743): one sub-task configuration per chunk index. -/
def buildChunks (URL : String) (inputs outputs : List (String × SDataObj))
    (scat : List String) : List Nat → Except String (List SubTaskCfg)
  | [] => .ok []
  | i :: rest =>
    match buildSubTaskInput scat i inputs with
    | .error e => .error e
    | .ok ins =>
      match buildSubTaskOutput i outputs with
      | .error e => .error e
      | .ok outs =>
        match buildChunks URL inputs outputs scat rest with
        | .error e => .error e
        | .ok r => .ok (mkSubTaskCfg URL i ins outs :: r)

/-- Embedding of `PypeScatteredTasks` (task.py lines 669-745): scan inputs
then outputs for the chunk count and the auxiliary scatter/gather tasks,
then build one task per chunk.  Returns the auxiliary task list and the
per-chunk configurations; a missing chunk count (`range(None)`) is a fatal
error, as in Python. -/
def PypeScatteredTasks (URL : String)
    (inputDataObjs outputDataObjs : List (String × SDataObj)) :
    Except String (List String × List SubTaskCfg) :=
  match scanScatteredInputs inputDataObjs none [] [] with
  | .error e => .error e
  | .ok (nChunk1, sg1, scat) =>
    match scanScatteredOutputs outputDataObjs nChunk1 sg1 with
    | .error e => .error e
    | .ok (nChunk2, sg2) =>
      match nChunk2 with
      | none => .error "TypeError: range of None"
      | some n =>
        match buildChunks URL inputDataObjs outputDataObjs scat
            (List.range n) with
        | .error e => .error e
        | .ok ts => .ok (sg2, ts)

/-- The chunked entries of an input/output map
(`hasattr(obj, "nChunk")`). -/
def chunkedObjs (l : List (String × SDataObj)) : List (String × SDataObj) :=
  l.filter (fun p => p.2.nChunk.isSome)

/-- The keys of the chunked inputs (the `scatteredInput` list). -/
def chunkedKeys (l : List (String × SDataObj)) : List String :=
  (chunkedObjs l).map Prod.fst

theorem scanScatteredInputs_some (l : List (String × SDataObj)) :
    ∀ (n : Nat) (sg scat : List String) r,
    scanScatteredInputs l (some n) sg scat = .ok r →
    r.1 = some n ∧ r.2.1 = sg ∧ r.2.2 = scat ++ chunkedKeys l := by
  induction l with
  | nil =>
    intro n sg scat r h
    have hr : r = (some n, sg, scat) := (Except.ok.inj h).symm
    subst hr
    simp [chunkedKeys, chunkedObjs]
  | cons hd tl ih =>
    intro n sg scat r h
    rcases hd with ⟨k, o⟩
    cases ho : o.nChunk with
    | none =>
      have h2 : scanScatteredInputs tl (some n) sg scat = .ok r := by
        rw [← h]
        simp [scanScatteredInputs, ho]
      have := ih n sg scat r h2
      refine ⟨this.1, this.2.1, ?_⟩
      rw [this.2.2]
      simp [chunkedKeys, chunkedObjs, List.filter_cons, ho]
    | some c =>
      by_cases hc : c = n
      · have h2 : scanScatteredInputs tl (some n) sg (scat ++ [k]) = .ok r := by
          rw [← h]
          simp [scanScatteredInputs, ho, hc]
        have := ih n sg (scat ++ [k]) r h2
        refine ⟨this.1, this.2.1, ?_⟩
        rw [this.2.2]
        simp [chunkedKeys, chunkedObjs, List.filter_cons, ho]
      · exfalso
        have h2 : scanScatteredInputs ((k, o) :: tl) (some n) sg scat
            = .error "AssertionError" := by
          simp [scanScatteredInputs, ho, hc]
        rw [h2] at h
        exact Except.noConfusion h

theorem scanScatteredInputs_none (l : List (String × SDataObj)) :
    ∀ (sg scat : List String) r,
    scanScatteredInputs l none sg scat = .ok r →
    r.2.1 = sg ++ ((chunkedObjs l).head?.bind (fun p => p.2.scatterTask)).toList ∧
    r.2.2 = scat ++ chunkedKeys l ∧
    (∀ p, (chunkedObjs l).head? = some p → r.1 = p.2.nChunk) ∧
    ((chunkedObjs l).head? = none → r.1 = none) := by
  induction l with
  | nil =>
    intro sg scat r h
    have hr : r = (none, sg, scat) := (Except.ok.inj h).symm
    subst hr
    refine ⟨by simp [chunkedObjs], by simp [chunkedKeys, chunkedObjs], ?_, ?_⟩
    · intro p hp
      simp [chunkedObjs] at hp
    · intro _
      rfl
  | cons hd tl ih =>
    intro sg scat r h
    rcases hd with ⟨k, o⟩
    cases ho : o.nChunk with
    | none =>
      have h2 : scanScatteredInputs tl none sg scat = .ok r := by
        rw [← h]
        simp [scanScatteredInputs, ho]
      have hch : chunkedObjs ((k, o) :: tl) = chunkedObjs tl := by
        simp [chunkedObjs, List.filter_cons, ho]
      have := ih sg scat r h2
      rw [hch]
      exact ⟨this.1, by rw [this.2.1]; simp [chunkedKeys, hch], this.2.2.1,
        this.2.2.2⟩
    | some c =>
      have hch : chunkedObjs ((k, o) :: tl) = (k, o) :: chunkedObjs tl := by
        simp [chunkedObjs, List.filter_cons, ho]
      cases hst : o.scatterTask with
      | some st =>
        have h2 : scanScatteredInputs tl (some c) (sg ++ [st]) (scat ++ [k])
            = .ok r := by
          rw [← h]
          simp [scanScatteredInputs, ho, hst]
        have := scanScatteredInputs_some tl c (sg ++ [st]) (scat ++ [k]) r h2
        rw [hch]
        refine ⟨?_, ?_, ?_, ?_⟩
        · rw [this.2.1]
          simp [hst]
        · rw [this.2.2]
          simp [chunkedKeys, hch]
        · intro p hp
          have hpk : p = (k, o) := by
            simp only [List.head?_cons] at hp
            exact (Option.some.inj hp).symm
          rw [hpk]
          simp only [this.1, ho]
        · intro hnone
          simp at hnone
      | none =>
        have h2 : scanScatteredInputs tl (some c) sg (scat ++ [k])
            = .ok r := by
          rw [← h]
          simp [scanScatteredInputs, ho, hst]
        have := scanScatteredInputs_some tl c sg (scat ++ [k]) r h2
        rw [hch]
        refine ⟨?_, ?_, ?_, ?_⟩
        · rw [this.2.1]
          simp [hst]
        · rw [this.2.2]
          simp [chunkedKeys, hch]
        · intro p hp
          have hpk : p = (k, o) := by
            simp only [List.head?_cons] at hp
            exact (Option.some.inj hp).symm
          rw [hpk]
          simp only [this.1, ho]
        · intro hnone
          simp at hnone

theorem scanScatteredOutputs_some (l : List (String × SDataObj)) :
    ∀ (n : Nat) (sg : List String) r,
    scanScatteredOutputs l (some n) sg = .ok r →
    r.1 = some n ∧
    r.2 = sg ++ (chunkedObjs l).filterMap (fun p => p.2.gatherTask) := by
  induction l with
  | nil =>
    intro n sg r h
    have hr : r = (some n, sg) := (Except.ok.inj h).symm
    subst hr
    simp [chunkedObjs]
  | cons hd tl ih =>
    intro n sg r h
    rcases hd with ⟨k, o⟩
    cases ho : o.nChunk with
    | none =>
      have h2 : scanScatteredOutputs tl (some n) sg = .ok r := by
        rw [← h]
        simp [scanScatteredOutputs, ho]
      have := ih n sg r h2
      refine ⟨this.1, ?_⟩
      rw [this.2]
      simp [chunkedObjs, List.filter_cons, ho]
    | some c =>
      by_cases hc : c = n
      · cases hgt : o.gatherTask with
        | some gt =>
          have h2 : scanScatteredOutputs tl (some n) (sg ++ [gt]) = .ok r := by
            rw [← h]
            simp [scanScatteredOutputs, ho, hc, hgt]
          have := ih n (sg ++ [gt]) r h2
          refine ⟨this.1, ?_⟩
          rw [this.2]
          simp [chunkedObjs, List.filter_cons, ho, List.filterMap_cons, hgt]
        | none =>
          have h2 : scanScatteredOutputs tl (some n) sg = .ok r := by
            rw [← h]
            simp [scanScatteredOutputs, ho, hc, hgt]
          have := ih n sg r h2
          refine ⟨this.1, ?_⟩
          rw [this.2]
          simp [chunkedObjs, List.filter_cons, ho, List.filterMap_cons, hgt]
      · exfalso
        have h2 : scanScatteredOutputs ((k, o) :: tl) (some n) sg
            = .error "AssertionError" := by
          simp [scanScatteredOutputs, ho, hc]
        rw [h2] at h
        exact Except.noConfusion h

theorem scanScatteredOutputs_none (l : List (String × SDataObj)) :
    ∀ (sg : List String) r,
    scanScatteredOutputs l none sg = .ok r →
    r.2 = sg ++ ((chunkedObjs l).tail).filterMap (fun p => p.2.gatherTask) := by
  induction l with
  | nil =>
    intro sg r h
    have hr : r = (none, sg) := (Except.ok.inj h).symm
    subst hr
    simp [chunkedObjs]
  | cons hd tl ih =>
    intro sg r h
    rcases hd with ⟨k, o⟩
    cases ho : o.nChunk with
    | none =>
      have h2 : scanScatteredOutputs tl none sg = .ok r := by
        rw [← h]
        simp [scanScatteredOutputs, ho]
      have := ih sg r h2
      rw [this]
      simp [chunkedObjs, List.filter_cons, ho]
    | some c =>
      have h2 : scanScatteredOutputs tl (some c) sg = .ok r := by
        rw [← h]
        simp [scanScatteredOutputs, ho]
      have := scanScatteredOutputs_some tl c sg r h2
      rw [this.2]
      simp [chunkedObjs, List.filter_cons, ho]

/-- C3 (amended): on a successful decomposition, the auxiliary
scatter/gather task list consists of (a) the scatter task of the FIRST
chunked input, when present, followed by (b) the gather tasks of the chunked
outputs scanned while the chunk count was already established — i.e. all
chunked outputs when some chunked input exists, and all but the first
chunked output when the chunk count is first established by an output.  In
particular, when the only chunked object is an output, its gather task is
NOT collected. -/
theorem scatterGatherTasks_collection (URL : String)
    (ins outs : List (String × SDataObj)) (sg : List String)
    (ts : List SubTaskCfg)
    (h : PypeScatteredTasks URL ins outs = .ok (sg, ts)) :
    sg = ((chunkedObjs ins).head?.bind (fun p => p.2.scatterTask)).toList
      ++ (if (chunkedObjs ins).isEmpty then (chunkedObjs outs).tail
          else chunkedObjs outs).filterMap (fun p => p.2.gatherTask) := by
  simp only [PypeScatteredTasks] at h
  cases h1 : scanScatteredInputs ins none [] [] with
  | error e =>
    rw [h1] at h
    exact Except.noConfusion h
  | ok r1 =>
    obtain ⟨n1, sg1, scat⟩ := r1
    rw [h1] at h
    simp only at h
    cases h2 : scanScatteredOutputs outs n1 sg1 with
    | error e =>
      rw [h2] at h
      exact Except.noConfusion h
    | ok r2 =>
      obtain ⟨n2, sg2⟩ := r2
      rw [h2] at h
      simp only at h
      have hI := scanScatteredInputs_none ins [] [] (n1, sg1, scat) h1
      have hIsg : sg1 = [] ++ ((chunkedObjs ins).head?.bind
          (fun p => p.2.scatterTask)).toList := hI.1
      have hsg : sg = sg2 := by
        cases n2 with
        | none => exact Except.noConfusion h
        | some n =>
          have h' : (match buildChunks URL ins outs scat (List.range n) with
              | Except.error e =>
                (Except.error e : Except String (List String × List SubTaskCfg))
              | Except.ok ts0 => Except.ok (sg2, ts0)) = Except.ok (sg, ts) := h
          cases h3 : buildChunks URL ins outs scat (List.range n) with
          | error e =>
            rw [h3] at h'
            exact Except.noConfusion h'
          | ok ts0 =>
            rw [h3] at h'
            have hp := Except.ok.inj h'
            exact (congrArg Prod.fst hp).symm
      cases hfi : chunkedObjs ins with
      | nil =>
        have hn1 : n1 = none := hI.2.2.2 (by rw [hfi]; rfl)
        have hsg1 : sg1 = [] := by
          rw [hIsg, hfi]
          rfl
        rw [hn1] at h2
        have hO : sg2 = sg1 ++ ((chunkedObjs outs).tail).filterMap
            (fun p => p.2.gatherTask) :=
          scanScatteredOutputs_none outs sg1 (n2, sg2) h2
        rw [hsg, hO, hsg1]
        simp
      | cons p rest =>
        have hhead : (chunkedObjs ins).head? = some p := by rw [hfi]; rfl
        have hpmem : p ∈ chunkedObjs ins := by
          rw [hfi]
          exact List.mem_cons_self _ _
        have hpred : (p.2.nChunk).isSome := by
          have hmf := List.mem_filter.mp
            (by rw [chunkedObjs] at hpmem; exact hpmem)
          simpa using hmf.2
        rcases Option.isSome_iff_exists.mp hpred with ⟨c, hc⟩
        have hn1 : n1 = some c := by
          have h4 : n1 = p.2.nChunk := hI.2.2.1 p hhead
          rw [h4, hc]
        have hsg1 : sg1 = (p.2.scatterTask).toList := by
          rw [hIsg, hhead]
          rfl
        rw [hn1] at h2
        have hOs := scanScatteredOutputs_some outs c sg1 (n2, sg2) h2
        have hO : sg2 = sg1 ++ (chunkedObjs outs).filterMap
            (fun p => p.2.gatherTask) := hOs.2
        rw [hsg, hO, hsg1]
        simp

/-- C3, counterexample: a decomposition whose ONLY chunked object is an
output carrying a gather task produces an EMPTY auxiliary scatter/gather
task list — the branch that first establishes the chunk count from an
output never collects that output's gather task, contrary to the claim
(which explicitly includes this case). -/
theorem scatterGatherTasks_output_only_missed :
    (PypeScatteredTasks "tasks://m/f" []
      [("o", { URL := "o", oid := 3, nChunk := some 2, scatterTask := none,
               gatherTask := some "g",
               splittedFiles := some [⟨"o0", "o0", 0, true, false, 11⟩,
                 ⟨"o1", "o1", 0, true, false, 12⟩] })]).toOption.map Prod.fst
      = some [] ∧
    ({ URL := "o", oid := 3, nChunk := some 2, scatterTask := none,
       gatherTask := some "g",
       splittedFiles := some [⟨"o0", "o0", 0, true, false, 11⟩,
         ⟨"o1", "o1", 0, true, false, 12⟩] } : SDataObj).gatherTask
      = some "g" := by
  exact ⟨rfl, rfl⟩

/-- Concrete inputs used by the C3 witness: "a" is a chunked input with a
scatter task, "b" a plain input. -/
def c3wIns : List (String × SDataObj) :=
  [("a", { URL := "a", oid := 1, nChunk := some 1,
           scatterTask := some "sA", gatherTask := none,
           splittedFiles := some [⟨"a0", "a0", 0, true, false, 10⟩] }),
   ("b", { URL := "b", oid := 2, nChunk := none, scatterTask := none,
           gatherTask := none, splittedFiles := none })]

/-- Concrete outputs used by the C3 witness: one chunked output with a
gather task. -/
def c3wOuts : List (String × SDataObj) :=
  [("o", { URL := "o", oid := 3, nChunk := some 1, scatterTask := none,
           gatherTask := some "gO",
           splittedFiles := some [⟨"o0", "o0", 0, true, false, 11⟩] })]

/-- The plain (non-chunked) input object of the C3 witness data. -/
def c3wPlainB : SDataObj :=
  { URL := "b", oid := 2, nChunk := none, scatterTask := none,
    gatherTask := none, splittedFiles := none }

/-- The per-chunk configurations the decomposer produces on the C3 witness
data. -/
def c3wTs : List SubTaskCfg :=
  [{ URL := "tasks://m/g".replace "tasks" "task" ++ "/" ++ fmt03 0,
     chunk_id := 0,
     inputDataObjs := [("a", Sum.inr ⟨"a0", "a0", 0, true, false, 10⟩),
       ("b", Sum.inl c3wPlainB)],
     outputDataObjs := [("o", Sum.inr ⟨"o0", "o0", 0, true, false, 11⟩)] }]

/-- C3 (amended), witness: with a chunked input carrying scatter task "sA"
and a chunked output carrying gather task "gO", the decomposition succeeds
and the auxiliary list is exactly ["sA", "gO"], matching the amended
formula. -/
theorem scatterGatherTasks_collection_witness :
    (["sA", "gO"] : List String)
      = ((chunkedObjs c3wIns).head?.bind (fun p => p.2.scatterTask)).toList
        ++ (if (chunkedObjs c3wIns).isEmpty then (chunkedObjs c3wOuts).tail
            else chunkedObjs c3wOuts).filterMap (fun p => p.2.gatherTask) :=
  scatterGatherTasks_collection "tasks://m/g" c3wIns c3wOuts
    ["sA", "gO"] c3wTs (by rfl)

theorem buildSubTaskOutput_ok (i : Nat) :
    ∀ (l : List (String × SDataObj)) r,
    buildSubTaskOutput i l = .ok r →
    ∀ p ∈ l, ∃ files f, p.2.splittedFiles = some files ∧
      files[i]? = some f ∧ (p.1, Sum.inr f) ∈ r := by
  intro l
  induction l with
  | nil =>
    intro r _ p hp
    exact absurd hp (List.not_mem_nil p)
  | cons hd tl ih =>
    intro r h p hp
    rcases hd with ⟨k, o⟩
    cases hsp : o.splittedFiles with
    | none =>
      rw [show buildSubTaskOutput i ((k, o) :: tl)
          = .error "AttributeError: getSplittedFiles" from by
        simp [buildSubTaskOutput, hsp]] at h
      exact Except.noConfusion h
    | some files =>
      cases hget : files[i]? with
      | none =>
        rw [show buildSubTaskOutput i ((k, o) :: tl) = .error "IndexError" from by
          simp [buildSubTaskOutput, hsp, hget]] at h
        exact Except.noConfusion h
      | some f =>
        cases hrest : buildSubTaskOutput i tl with
        | error e =>
          rw [show buildSubTaskOutput i ((k, o) :: tl) = .error e from by
            simp [buildSubTaskOutput, hsp, hget, hrest]] at h
          exact Except.noConfusion h
        | ok r0 =>
          have hr : r = (k, Sum.inr f) :: r0 := by
            rw [show buildSubTaskOutput i ((k, o) :: tl)
                = .ok ((k, Sum.inr f) :: r0) from by
              simp [buildSubTaskOutput, hsp, hget, hrest]] at h
            exact (Except.ok.inj h).symm
          rcases List.mem_cons.mp hp with hph | hpt
          · subst hph
            exact ⟨files, f, hsp, hget, by rw [hr]; exact List.mem_cons_self _ _⟩
          · rcases ih r0 hrest p hpt with ⟨fs, f2, h1, h2, h3⟩
            exact ⟨fs, f2, h1, h2, by rw [hr]; exact List.mem_cons_of_mem _ h3⟩

theorem buildSubTaskOutput_fails (i : Nat) :
    ∀ (l : List (String × SDataObj)),
    (∃ p ∈ l, p.2.splittedFiles = none) →
    (buildSubTaskOutput i l).isOk = false := by
  intro l
  induction l with
  | nil =>
    intro h
    rcases h with ⟨p, hp, _⟩
    exact absurd hp (List.not_mem_nil p)
  | cons hd tl ih =>
    intro h
    rcases hd with ⟨k, o⟩
    cases hsp : o.splittedFiles with
    | none => simp [buildSubTaskOutput, hsp, Except.isOk, Except.toBool]
    | some files =>
      have htl : ∃ p ∈ tl, p.2.splittedFiles = none := by
        rcases h with ⟨p, hp, hnone⟩
        rcases List.mem_cons.mp hp with hph | hpt
        · subst hph
          rw [hsp] at hnone
          exact absurd hnone (by simp)
        · exact ⟨p, hpt, hnone⟩
      cases hget : files[i]? with
      | none => simp [buildSubTaskOutput, hsp, hget, Except.isOk, Except.toBool]
      | some f =>
        have hih := ih htl
        cases hrest : buildSubTaskOutput i tl with
        | error e =>
          simp [buildSubTaskOutput, hsp, hget, hrest, Except.isOk, Except.toBool]
        | ok r0 =>
          rw [hrest] at hih
          exact absurd hih (by simp [Except.isOk, Except.toBool])

theorem buildSubTaskInput_pass (scat : List String) (i : Nat) :
    ∀ (l : List (String × SDataObj)) r,
    buildSubTaskInput scat i l = .ok r →
    ∀ p ∈ l, p.1 ∉ scat → (p.1, Sum.inl p.2) ∈ r := by
  intro l
  induction l with
  | nil =>
    intro r _ p hp
    exact absurd hp (List.not_mem_nil p)
  | cons hd tl ih =>
    intro r h p hp hns
    rcases hd with ⟨k, o⟩
    by_cases hk : k ∈ scat
    · cases hsp : o.splittedFiles with
      | none =>
        rw [show buildSubTaskInput scat i ((k, o) :: tl)
            = .error "AttributeError: getSplittedFiles" from by
          simp [buildSubTaskInput, hk, hsp]] at h
        exact Except.noConfusion h
      | some files =>
        cases hget : files[i]? with
        | none =>
          rw [show buildSubTaskInput scat i ((k, o) :: tl)
              = .error "IndexError" from by
            simp [buildSubTaskInput, hk, hsp, hget]] at h
          exact Except.noConfusion h
        | some f =>
          cases hrest : buildSubTaskInput scat i tl with
          | error e =>
            rw [show buildSubTaskInput scat i ((k, o) :: tl) = .error e from by
              simp [buildSubTaskInput, hk, hsp, hget, hrest]] at h
            exact Except.noConfusion h
          | ok r0 =>
            have hr : r = (k, Sum.inr f) :: r0 := by
              rw [show buildSubTaskInput scat i ((k, o) :: tl)
                  = .ok ((k, Sum.inr f) :: r0) from by
                simp [buildSubTaskInput, hk, hsp, hget, hrest]] at h
              exact (Except.ok.inj h).symm
            rcases List.mem_cons.mp hp with hph | hpt
            · subst hph
              exact absurd hk hns
            · rw [hr]
              exact List.mem_cons_of_mem _ (ih r0 hrest p hpt hns)
    · cases hrest : buildSubTaskInput scat i tl with
      | error e =>
        rw [show buildSubTaskInput scat i ((k, o) :: tl) = .error e from by
          simp [buildSubTaskInput, hk, hrest]] at h
        exact Except.noConfusion h
      | ok r0 =>
        have hr : r = (k, Sum.inl o) :: r0 := by
          rw [show buildSubTaskInput scat i ((k, o) :: tl)
              = .ok ((k, Sum.inl o) :: r0) from by
            simp [buildSubTaskInput, hk, hrest]] at h
          exact (Except.ok.inj h).symm
        rcases List.mem_cons.mp hp with hph | hpt
        · subst hph
          rw [hr]
          exact List.mem_cons_self _ _
        · rw [hr]
          exact List.mem_cons_of_mem _ (ih r0 hrest p hpt hns)

theorem buildChunks_ok (URL : String) (inputs outputs : List (String × SDataObj))
    (scat : List String) :
    ∀ (lst : List Nat) (ts : List SubTaskCfg),
    buildChunks URL inputs outputs scat lst = .ok ts →
    ∀ cfg ∈ ts,
      buildSubTaskInput scat cfg.chunk_id inputs = .ok cfg.inputDataObjs ∧
      buildSubTaskOutput cfg.chunk_id outputs = .ok cfg.outputDataObjs := by
  intro lst
  induction lst with
  | nil =>
    intro ts h cfg hcfg
    have : ts = [] := (Except.ok.inj h).symm
    subst this
    exact absurd hcfg (List.not_mem_nil cfg)
  | cons i rest ih =>
    intro ts h cfg hcfg
    cases hin : buildSubTaskInput scat i inputs with
    | error e =>
      rw [show buildChunks URL inputs outputs scat (i :: rest) = .error e from by
        simp [buildChunks, hin]] at h
      exact Except.noConfusion h
    | ok ins_ =>
      cases hout : buildSubTaskOutput i outputs with
      | error e =>
        rw [show buildChunks URL inputs outputs scat (i :: rest)
            = .error e from by
          simp [buildChunks, hin, hout]] at h
        exact Except.noConfusion h
      | ok outs_ =>
        cases hrest : buildChunks URL inputs outputs scat rest with
        | error e =>
          rw [show buildChunks URL inputs outputs scat (i :: rest)
              = .error e from by
            simp [buildChunks, hin, hout, hrest]] at h
          exact Except.noConfusion h
        | ok r0 =>
          have hts : ts = mkSubTaskCfg URL i ins_ outs_ :: r0 := by
            rw [show buildChunks URL inputs outputs scat (i :: rest)
                = .ok (mkSubTaskCfg URL i ins_ outs_ :: r0) from by
              simp [buildChunks, hin, hout, hrest]] at h
            exact (Except.ok.inj h).symm
          subst hts
          rcases List.mem_cons.mp hcfg with hch | hct
          · subst hch
            exact ⟨hin, hout⟩
          · exact ih r0 hrest cfg hct

theorem nodup_keys_eq {l : List (String × SDataObj)}
    (hnd : (l.map Prod.fst).Nodup) {p q : String × SDataObj}
    (hp : p ∈ l) (hq : q ∈ l) (hkey : p.1 = q.1) : p = q := by
  induction l with
  | nil => exact absurd hp (List.not_mem_nil p)
  | cons a rest ih =>
    rw [List.map_cons, List.nodup_cons] at hnd
    rcases List.mem_cons.mp hp with hp1 | hp2 <;>
      rcases List.mem_cons.mp hq with hq1 | hq2
    · rw [hp1, hq1]
    · exfalso
      apply hnd.1
      have ha : a.1 = q.1 := by rw [← hp1]; exact hkey
      rw [ha]
      exact List.mem_map.mpr ⟨q, hq2, rfl⟩
    · exfalso
      apply hnd.1
      have ha : a.1 = p.1 := by rw [← hq1]; exact hkey.symm
      rw [ha]
      exact List.mem_map.mpr ⟨p, hp2, rfl⟩
    · exact ih hnd.2 hp2 hq2

/-- C10: on a successful decomposition (with distinct input keys, as in a
Python dict), every output object — whether or not it declares a chunk
count — is replaced in each per-chunk configuration by its `chunk_id`-th
sub-object from `getSplittedFiles()`; only inputs without a chunk count pass
through unchanged; and a non-splittable output always makes the per-chunk
output construction fail (it is never passed through), so the decomposer
requires every output to be splittable. -/
theorem scattered_outputs_split (URL : String)
    (ins outs : List (String × SDataObj)) (sg : List String)
    (ts : List SubTaskCfg) (hnd : (ins.map Prod.fst).Nodup)
    (h : PypeScatteredTasks URL ins outs = .ok (sg, ts)) :
    (∀ cfg ∈ ts, ∀ p ∈ outs, ∃ files f, p.2.splittedFiles = some files ∧
        files[cfg.chunk_id]? = some f ∧ (p.1, Sum.inr f) ∈ cfg.outputDataObjs)
  ∧ (∀ cfg ∈ ts, ∀ p ∈ ins, p.2.nChunk = none →
      (p.1, Sum.inl p.2) ∈ cfg.inputDataObjs)
  ∧ (∀ (outs2 : List (String × SDataObj)) (i : Nat),
      (∃ p ∈ outs2, p.2.splittedFiles = none) →
      (buildSubTaskOutput i outs2).isOk = false) := by
  simp only [PypeScatteredTasks] at h
  cases h1 : scanScatteredInputs ins none [] [] with
  | error e =>
    rw [h1] at h
    exact Except.noConfusion h
  | ok r1 =>
    obtain ⟨n1, sg1, scat⟩ := r1
    rw [h1] at h
    simp only at h
    have hscat : scat = chunkedKeys ins := by
      have hI := scanScatteredInputs_none ins [] [] (n1, sg1, scat) h1
      have h5 : scat = [] ++ chunkedKeys ins := hI.2.1
      simpa using h5
    cases h2 : scanScatteredOutputs outs n1 sg1 with
    | error e =>
      rw [h2] at h
      exact Except.noConfusion h
    | ok r2 =>
      obtain ⟨n2, sg2⟩ := r2
      rw [h2] at h
      simp only at h
      cases n2 with
      | none => exact Except.noConfusion h
      | some n =>
        have h' : (match buildChunks URL ins outs scat (List.range n) with
            | Except.error e =>
              (Except.error e : Except String (List String × List SubTaskCfg))
            | Except.ok ts0 => Except.ok (sg2, ts0)) = Except.ok (sg, ts) := h
        cases h3 : buildChunks URL ins outs scat (List.range n) with
        | error e =>
          rw [h3] at h'
          exact Except.noConfusion h'
        | ok ts0 =>
          rw [h3] at h'
          have hpair := Except.ok.inj h'
          have hts : ts = ts0 := (congrArg Prod.snd hpair).symm
          subst hts
          have hbc := buildChunks_ok URL ins outs scat (List.range n) ts h3
          refine ⟨?_, ?_, ?_⟩
          · intro cfg hcfg p hp
            exact buildSubTaskOutput_ok cfg.chunk_id outs cfg.outputDataObjs
              (hbc cfg hcfg).2 p hp
          · intro cfg hcfg p hp hpn
            apply buildSubTaskInput_pass scat cfg.chunk_id ins
              cfg.inputDataObjs (hbc cfg hcfg).1 p hp
            rw [hscat]
            intro hmem
            rcases List.mem_map.mp hmem with ⟨q, hq, hqk⟩
            have hqin := List.mem_filter.mp
              (by rw [chunkedObjs] at hq; exact hq)
            have hpq : p = q := nodup_keys_eq hnd hp hqin.1 hqk.symm
            rw [← hpq] at hqin
            rw [hpn] at hqin
            exact absurd hqin.2 (by simp)
          · intro outs2 i hex
            exact buildSubTaskOutput_fails i outs2 hex

/-- The chunked input of the C10 witness data. -/
def c10wChA : SDataObj :=
  { URL := "a", oid := 21, nChunk := some 1, scatterTask := none,
    gatherTask := none,
    splittedFiles := some [⟨"a0", "a0", 0, true, false, 22⟩] }

/-- The plain input of the C10 witness data. -/
def c10wPlB : SDataObj :=
  { URL := "b", oid := 23, nChunk := none, scatterTask := none,
    gatherTask := none, splittedFiles := none }

/-- The chunked output of the C10 witness data. -/
def c10wChO : SDataObj :=
  { URL := "o", oid := 24, nChunk := some 1, scatterTask := none,
    gatherTask := none,
    splittedFiles := some [⟨"o0", "o0", 0, true, false, 25⟩] }

/-- A non-splittable object used to exercise the failure conjunct of the
C10 theorem. -/
def c10wBad : SDataObj :=
  { URL := "x", oid := 26, nChunk := none, scatterTask := none,
    gatherTask := none, splittedFiles := none }

/-- The per-chunk configurations produced on the C10 witness data. -/
def c10wTs : List SubTaskCfg :=
  [mkSubTaskCfg "tasks://m/h" 0
    [("a", Sum.inr ⟨"a0", "a0", 0, true, false, 22⟩),
     ("b", Sum.inl c10wPlB)]
    [("o", Sum.inr ⟨"o0", "o0", 0, true, false, 25⟩)]]

/-- C10, witness: the theorem applies to a concrete successful
decomposition, and its failure conjunct shows a non-splittable output makes
the per-chunk output construction fail. -/
theorem scattered_outputs_split_witness :
    (buildSubTaskOutput 0 [("x", c10wBad)]).isOk = false := by
  have h := scattered_outputs_split "tasks://m/h"
    [("a", c10wChA), ("b", c10wPlB)] [("o", c10wChO)] [] c10wTs
    (by simp) (by rfl)
  exact h.2.2 [("x", c10wBad)] 0 ⟨("x", c10wBad), List.mem_cons_self _ _, rfl⟩
